import Mathlib

/-!
Shallow embedding of the SuperMemo-2 scheduling engine of
`src/src/cards/cards.service.ts` (class `CardsService`), together with
theorems settling the specification claims about it.

Modelling conventions:
* JavaScript `number` values that carry exact decimal arithmetic in the
  source (ease factors, ratings, intervals) are modelled as `ℚ`.
* Timestamps are modelled as rational "days since epoch"; the source's
  `setDate(getDate() + interval)` becomes addition of `interval` days,
  and a calendar day (the `toISOString().split('T')[0]` key) becomes the
  floor of the timestamp.
* Optional fields (`tags?`, `notes?`, `lastReview?`, `performance?`,
  `lastRating?`) are modelled as `Option`.
* The fallible `reviewCard` (which throws `'Card not found'`) returns
  `Except String`.
-/

unseal Rat.mul Rat.add Rat.inv Rat.sub

namespace SuperMemo

/-- The `Card` interface of `cards.service.ts` (lines 5-18). -/
structure Card where
  id : String
  question : String
  answer : String
  EF : ℚ                       -- Ease Factor
  interval : ℚ                 -- Current interval in days
  repetition : ℕ               -- Number of times card has been reviewed
  dueDate : ℚ                  -- timestamp (days) when card is due
  tags : Option (List String) := none
  notes : Option String := none
  lastReview : Option ℚ := none
  performance : Option (List ℚ) := none
  lastRating : Option ℚ := none
  deriving DecidableEq, Repr

/-- JavaScript `Math.round`: rounds half toward positive infinity,
`Math.round x = ⌊x + 0.5⌋`. -/
def jsRound (x : ℚ) : ℤ := ⌊x + 1/2⌋

/-- JavaScript `Math.max` on two numbers. Equal to Mathlib's `max`
(see `jsMax_eq_max`); spelled out so that concrete inputs evaluate. -/
def jsMax (a b : ℚ) : ℚ := if a ≤ b then b else a

/-- `calculateNewEF` (lines 113-115):
`currentEF + (0.1 - (5 - rating) * (0.08 + (5 - rating) * 0.02))`. -/
def calculateNewEF (currentEF : ℚ) (rating : ℚ) : ℚ :=
  currentEF + (1/10 - (5 - rating) * (8/100 + (5 - rating) * (2/100)))

/-- The value returned by `reviewCard`: the updated card plus the
`needsReReview` flag (lines 173-176). The flag is not a field of `Card`,
mirroring the source where it lives only in the returned object and is
never persisted. -/
structure ReviewOutcome where
  card : Card
  needsReReview : Bool
  deriving DecidableEq, Repr

/-- The per-card body of `reviewCard` (lines 129-176), applied to the card
found by id; `now` is the current timestamp. Mutation order follows the
source: `lastRating`, `performance`, `lastReview` are set first, then the
ease factor is updated and clamped, then the branch on `rating >= 3`
updates `interval` (reading the pre-review `repetition` and `interval`
and the post-update ease factor) and `repetition`, and finally the due
date becomes `now + interval` days. -/
def applyReview (card : Card) (rating : ℚ) (now : ℚ) : ReviewOutcome :=
  let card1 : Card :=
    { card with
      lastRating := some rating
      performance := some (card.performance.getD [] ++ [rating])
      lastReview := some now }
  let newEF := calculateNewEF card.EF rating
  let card2 : Card := { card1 with EF := jsMax (13/10) newEF }
  let card3 : Card :=
    if 3 ≤ rating then
      -- Successful recall
      let newInterval : ℚ :=
        if card.repetition = 0 then 1
        else if card.repetition = 1 then 6
        else (jsRound (card2.interval * card2.EF) : ℚ)
      { card2 with interval := newInterval, repetition := card.repetition + 1 }
    else
      -- Failed recall - reset
      { card2 with repetition := 0, interval := 1 }
  { card := { card3 with dueDate := now + card3.interval }
    needsReReview := decide (rating < 4) }

/-- `reviewCard` (lines 123-177): finds the card by id (throwing
`'Card not found'` when absent), applies the review update, and writes the
updated card back at its index. The source performs no validation of
`rating` whatsoever. -/
def reviewCard (cards : List Card) (cardId : String) (rating : ℚ) (now : ℚ) :
    Except String (List Card × ReviewOutcome) :=
  match cards.find? (fun c => c.id = cardId) with
  | none => .error "Card not found"
  | some card =>
      let out := applyReview card rating now
      .ok (cards.set (cards.findIdx (fun c => c.id = cardId)) out.card, out)

/-- The due predicate of `getDueCards` (line 71): `new Date(card.dueDate) <= now`. -/
def isDue (now : ℚ) (c : Card) : Bool := c.dueDate ≤ now

/-- First priority filter of `getDueCards` (lines 75-77):
`card.lastRating !== undefined && card.lastRating <= 2`. -/
def isFailedCard (c : Card) : Bool :=
  match c.lastRating with
  | some r => r ≤ 2
  | none => false

/-- Second priority filter of `getDueCards` (lines 80-82):
`card.lastRating === 3`. -/
def isDifficultCard (c : Card) : Bool := c.lastRating = some 3

/-- Third priority filter of `getDueCards` (lines 88-90):
`card.lastRating === undefined || card.lastRating > 3`. -/
def isRemainingCard (c : Card) : Bool :=
  match c.lastRating with
  | some r => 3 < r
  | none => true

/-- `getDueCards` (lines 66-95), as a pure function of the loaded card
list and the current time. -/
def getDueCards (cards : List Card) (now : ℚ) (includeFailed : Bool := true) :
    List Card :=
  let dueCards := cards.filter (isDue now)
  if includeFailed then
    let failedCards := dueCards.filter isFailedCard
    let difficultCards := dueCards.filter isDifficultCard
    failedCards ++ difficultCards ++ dueCards.filter isRemainingCard
  else
    dueCards

/-- `getCardsByTags` (lines 100-108), as a pure function of the loaded
card list. `none` models an absent (`undefined`/`null`) `tags` argument,
matching the source guard `!tags || tags.length === 0`. -/
def getCardsByTags (cards : List Card) (tags : Option (List String)) :
    List Card :=
  match tags with
  | none => cards
  | some ts =>
      if ts.length = 0 then cards
      else
        cards.filter (fun c =>
          match c.tags with
          | none => false
          | some ct => ts.any (fun t => ct.contains t))

/-- The `stats` object of `getCardStats` (lines 220-227). The two
`Record<string, number>` maps are modelled as association lists keyed by
calendar day (the floor of the rational timestamp). -/
structure Stats where
  totalCards : ℕ
  dueCards : ℕ
  avgEaseFactor : ℚ
  reviewsByDay : List (ℤ × ℕ)
  upcomingReviews : List (ℤ × ℕ)
  performanceDistribution : List ℕ
  deriving DecidableEq, Repr

/-- Increment the counter stored under key `k` in an association list,
inserting `(k, 1)` when the key is absent (the source's
`m[k] = (m[k] || 0) + 1` on a `Record`). -/
def incrKey : List (ℤ × ℕ) → ℤ → List (ℤ × ℕ)
  | [], k => [(k, 1)]
  | (k', n) :: rest, k =>
      if k = k' then (k', n + 1) :: rest else (k', n) :: incrKey rest k

/-- One step of the performance-distribution count (lines 236-240):
`if (rating >= 0 && rating <= 5) stats.performanceDistribution[rating]++`.
A non-integer rating passes the source's range check but indexes a
non-bucket property of the array, leaving the six numeric buckets
unchanged; hence the integrality guard (`r.den = 1`) here. -/
def distAdd (d : List ℕ) (r : ℚ) : List ℕ :=
  if 0 ≤ r ∧ r ≤ 5 ∧ r.den = 1 then
    d.set r.num.toNat (d.getD r.num.toNat 0 + 1)
  else d

/-- The per-card body of the `forEach` of `getCardStats` (lines 233-261). -/
def statsStep (now : ℚ) (stats : Stats) (card : Card) : Stats :=
  -- Count performance ratings
  let stats :=
    { stats with
      performanceDistribution :=
        (card.performance.getD []).foldl distAdd stats.performanceDistribution }
  -- Count reviews by day
  let stats :=
    match card.lastReview with
    | some t => { stats with reviewsByDay := incrKey stats.reviewsByDay ⌊t⌋ }
    | none => stats
  -- Count upcoming reviews (next 30 days)
  if now ≤ card.dueDate ∧ card.dueDate ≤ now + 30 then
    { stats with upcomingReviews := incrKey stats.upcomingReviews ⌊card.dueDate⌋ }
  else stats

/-- `getCardStats` (lines 216-264), as a pure function of the loaded card
list and the current time. The source's `sum / cards.length || 0` yields
`0` on the empty set (where `0 / 0` is `NaN`); rational division already
produces `0` there, since the sum is then `0` as well. -/
def getCardStats (cards : List Card) (now : ℚ) : Stats :=
  let init : Stats :=
    { totalCards := cards.length
      dueCards := (cards.filter (fun card => decide (card.dueDate ≤ now))).length
      avgEaseFactor := (cards.map Card.EF).sum / (cards.length : ℚ)
      reviewsByDay := []
      upcomingReviews := []
      performanceDistribution := [0, 0, 0, 0, 0, 0] }
  cards.foldl (statsStep now) init

/-! ## Helper lemmas and sample cards -/

/-- The explicit `Math.max` embedding agrees with Mathlib's `max`. -/
lemma jsMax_eq_max (a b : ℚ) : jsMax a b = max a b := by
  by_cases h : a ≤ b <;> simp [jsMax, max_def, h]

/-- A fresh card, with the generation-time defaults of `parseCards`
(lines 43-48): EF 2.5, interval 0, repetition 0, due immediately. -/
def sampleCard : Card :=
  { id := "card-1", question := "q", answer := "a"
    EF := 5/2, interval := 0, repetition := 0, dueDate := 0 }

/-! ## Claim C1 -/

/-- C1: for every card and every rating in `[0, 5]`, `applyReview` (the
per-card body of `reviewCard`) sets the updated ease factor to
`max(1.3, EF + (0.1 - (5 - rating) * (0.08 + (5 - rating) * 0.02)))`,
where `EF` is the card's prior ease factor; consequently, for every input
card with `EF ≥ 1.3`, the resulting ease factor is never below `1.3`
(indeed it is never below `1.3` for any input card). -/
theorem c1_ef_update_and_floor (card : Card) (rating now : ℚ)
    (_h0 : 0 ≤ rating) (_h5 : rating ≤ 5) :
    (applyReview card rating now).card.EF
        = max (13/10)
            (card.EF + (1/10 - (5 - rating) * (8/100 + (5 - rating) * (2/100))))
      ∧ (13/10 ≤ card.EF → 13/10 ≤ (applyReview card rating now).card.EF) := by
  have hEF : (applyReview card rating now).card.EF
      = max (13/10)
          (card.EF + (1/10 - (5 - rating) * (8/100 + (5 - rating) * (2/100)))) := by
    by_cases h : 3 ≤ rating <;>
      simp [applyReview, calculateNewEF, jsMax_eq_max, h]
  exact ⟨hEF, fun _ => hEF ▸ le_max_left _ _⟩

/-- Witness for C1 at the fresh sample card, rating `3`, time `0`. -/
theorem c1_witness :
    (applyReview sampleCard 3 0).card.EF
        = max (13/10)
            (sampleCard.EF + (1/10 - (5 - 3) * (8/100 + (5 - 3) * (2/100))))
      ∧ (13/10 ≤ sampleCard.EF → 13/10 ≤ (applyReview sampleCard 3 0).card.EF) :=
  c1_ef_update_and_floor sampleCard 3 0 (by decide) (by decide)

/-! ## Claim C2 -/

/-- C2: for every card and every rating `≥ 3`, `applyReview` increments
`repetition` by one and sets the interval rank-based: if the card's
`repetition` before the review was `0` the new interval is `1`; if it was
`1` the new interval is `6`; otherwise it is
`round(previousInterval * EF)` computed with the post-update (already
clamped) ease factor; the due date becomes `now + interval` days. -/
theorem c2_success_branch (card : Card) (rating now : ℚ) (h : 3 ≤ rating) :
    (applyReview card rating now).card.repetition = card.repetition + 1
    ∧ (applyReview card rating now).card.interval =
        (if card.repetition = 0 then (1 : ℚ)
         else if card.repetition = 1 then 6
         else (jsRound (card.interval * (applyReview card rating now).card.EF) : ℚ))
    ∧ (applyReview card rating now).card.dueDate
        = now + (applyReview card rating now).card.interval := by
  refine ⟨?_, ?_, ?_⟩ <;> simp [applyReview, h]

/-- Witness for C2 at a card with repetition `2`, interval `6`, EF `2.6`,
rating `5`, time `0` (Scenario B/later-rank shape). -/
theorem c2_witness :
    (applyReview { sampleCard with repetition := 2, interval := 6, EF := 13/5 } 5 0).card.repetition
        = { sampleCard with repetition := 2, interval := 6, EF := 13/5 }.repetition + 1
    ∧ (applyReview { sampleCard with repetition := 2, interval := 6, EF := 13/5 } 5 0).card.interval =
        (if { sampleCard with repetition := 2, interval := 6, EF := 13/5 }.repetition = 0 then (1 : ℚ)
         else if { sampleCard with repetition := 2, interval := 6, EF := 13/5 }.repetition = 1 then 6
         else (jsRound ({ sampleCard with repetition := 2, interval := 6, EF := 13/5 }.interval
                * (applyReview { sampleCard with repetition := 2, interval := 6, EF := 13/5 } 5 0).card.EF) : ℚ))
    ∧ (applyReview { sampleCard with repetition := 2, interval := 6, EF := 13/5 } 5 0).card.dueDate
        = 0 + (applyReview { sampleCard with repetition := 2, interval := 6, EF := 13/5 } 5 0).card.interval :=
  c2_success_branch { sampleCard with repetition := 2, interval := 6, EF := 13/5 } 5 0 (by decide)

/-! ## Claim C3 -/

/-- C3: for every card and every rating `< 3`, `applyReview` resets
`repetition` to `0` and sets the interval to exactly `1` (never `0`), so
the failed card's due date becomes `now + 1` day rather than immediately
due; any previously accumulated interval growth is discarded. -/
theorem c3_failure_branch (card : Card) (rating now : ℚ) (h : rating < 3) :
    (applyReview card rating now).card.repetition = 0
    ∧ (applyReview card rating now).card.interval = 1
    ∧ (applyReview card rating now).card.dueDate = now + 1 := by
  have h' : ¬ 3 ≤ rating := not_le.mpr h
  refine ⟨?_, ?_, ?_⟩ <;> simp [applyReview, h']

/-- Witness for C3 at a card with accumulated growth (repetition `2`,
interval `6`), rating `2`, time `0` (Scenario C shape). -/
theorem c3_witness :
    (applyReview { sampleCard with repetition := 2, interval := 6 } 2 0).card.repetition = 0
    ∧ (applyReview { sampleCard with repetition := 2, interval := 6 } 2 0).card.interval = 1
    ∧ (applyReview { sampleCard with repetition := 2, interval := 6 } 2 0).card.dueDate = 0 + 1 :=
  c3_failure_branch { sampleCard with repetition := 2, interval := 6 } 2 0 (by decide)

/-! ## Claim C4 -/

/-- The four all-due cards of Scenario D: `lastRating` 1, 3, undefined,
and 5 respectively. -/
def dueCard1 : Card := { sampleCard with id := "due-1", lastRating := some 1 }

/-- Scenario D card 2. -/
def dueCard2 : Card := { sampleCard with id := "due-2", lastRating := some 3 }

/-- Scenario D card 3. -/
def dueCard3 : Card := { sampleCard with id := "due-3", lastRating := none }

/-- Scenario D card 4. -/
def dueCard4 : Card := { sampleCard with id := "due-4", lastRating := some 5 }

/-- C4: for every card set whose members are all due, `getDueCards` with
`includeFailed = true` returns the due cards partitioned into three tiers
concatenated in fixed order — first cards whose `lastRating` is defined
and `≤ 2`, then cards whose `lastRating` is exactly `3`, then all
remaining due cards (cards with no `lastRating` and cards with
`lastRating > 3`) — each tier being a filter of the input list and hence
preserving the relative input order. -/
theorem c4_three_tier_order (cards : List Card) (now : ℚ)
    (h : ∀ c ∈ cards, c.dueDate ≤ now) :
    getDueCards cards now true =
      cards.filter isFailedCard ++ cards.filter isDifficultCard
        ++ cards.filter isRemainingCard := by
  have hdue : cards.filter (isDue now) = cards :=
    List.filter_eq_self.mpr fun c hc => by
      simpa [isDue] using h c hc
  simp [getDueCards, hdue]

/-- Witness for C4: the Scenario D four-card due set comes back in
exactly the order `[card1, card2, card3, card4]`. -/
theorem c4_witness :
    getDueCards [dueCard1, dueCard2, dueCard3, dueCard4] 0 true
      = [dueCard1, dueCard2, dueCard3, dueCard4] :=
  (c4_three_tier_order [dueCard1, dueCard2, dueCard3, dueCard4] 0
    (by decide)).trans (by rfl)

/-! ## Claim C6 -/

/-- C6: a card is selected as due by `getDueCards` exactly when its
`dueDate ≤ now`: membership in the returned list is equivalent to
membership in the input list together with `dueDate ≤ now` when
`includeFailed = false`; with `includeFailed = true` every selected card
likewise satisfies `dueDate ≤ now`; and in particular a card whose
`dueDate` equals `now` is included (the comparison is `≤`, not `<`). -/
theorem c6_due_boundary (cards : List Card) (now : ℚ) (c : Card) :
    ((c ∈ getDueCards cards now false) ↔ (c ∈ cards ∧ c.dueDate ≤ now))
    ∧ (c ∈ getDueCards cards now true → c ∈ cards ∧ c.dueDate ≤ now)
    ∧ (c ∈ cards → c.dueDate = now → c ∈ getDueCards cards now false) := by
  refine ⟨?_, ?_, ?_⟩
  · simp [getDueCards, List.mem_filter, isDue]
  · intro hc
    simp only [getDueCards, if_pos, List.mem_append, List.mem_filter] at hc
    rcases hc with (h | h) | h <;>
      exact ⟨h.1.1, by simpa [isDue] using h.1.2⟩
  · intro hmem heq
    simp [getDueCards, List.mem_filter, isDue, hmem, heq]

/-- Witness for C6 at a one-card list whose card is due exactly at `now`. -/
theorem c6_witness :
    ((sampleCard ∈ getDueCards [sampleCard] 0 false)
        ↔ (sampleCard ∈ [sampleCard] ∧ sampleCard.dueDate ≤ 0))
    ∧ (sampleCard ∈ getDueCards [sampleCard] 0 true
        → sampleCard ∈ [sampleCard] ∧ sampleCard.dueDate ≤ 0)
    ∧ (sampleCard ∈ [sampleCard] → sampleCard.dueDate = 0
        → sampleCard ∈ getDueCards [sampleCard] 0 false) :=
  c6_due_boundary [sampleCard] 0 sampleCard

/-! ## Claim C7 -/

/-- C7: `getCardsByTags` with an absent (`none`) or empty tag set returns
the input list unchanged in order and content; the result is always a
sublist of the input (so input order is preserved); and with a non-empty
tag set a card is returned exactly when its tag list intersects the
filter (OR semantics) — in particular a card with no tags (`none`, whose
tag list reads as `[]`) never matches a non-empty filter. -/
theorem c7_tag_filter (cards : List Card) (ts : List String) (c : Card) :
    getCardsByTags cards none = cards
    ∧ getCardsByTags cards (some []) = cards
    ∧ (getCardsByTags cards (some ts)).Sublist cards
    ∧ (ts ≠ [] →
        ((c ∈ getCardsByTags cards (some ts))
          ↔ (c ∈ cards ∧ ∃ t ∈ ts, t ∈ c.tags.getD []))) := by
  refine ⟨rfl, rfl, ?_, ?_⟩
  · cases hts : ts with
    | nil => simp [getCardsByTags]
    | cons a l => simp [getCardsByTags]
  · intro hne
    have hlen : ¬ ts.length = 0 := fun h => hne (List.eq_nil_of_length_eq_zero h)
    simp only [getCardsByTags, if_neg hlen, List.mem_filter, and_congr_right_iff]
    intro _
    cases htags : c.tags with
    | none => simp
    | some ct => simp [List.any_eq_true]

/-- A tagged card for the C7 witness. -/
def taggedCard : Card := { sampleCard with id := "tagged", tags := some ["math"] }

/-- Witness for C7 at a one-card list and the non-empty filter
`["math", "other"]`. -/
theorem c7_witness :
    getCardsByTags [taggedCard] none = [taggedCard]
    ∧ getCardsByTags [taggedCard] (some []) = [taggedCard]
    ∧ (getCardsByTags [taggedCard] (some ["math", "other"])).Sublist [taggedCard]
    ∧ (["math", "other"] ≠ ([] : List String) →
        ((taggedCard ∈ getCardsByTags [taggedCard] (some ["math", "other"]))
          ↔ (taggedCard ∈ [taggedCard]
              ∧ ∃ t ∈ ["math", "other"], t ∈ taggedCard.tags.getD []))) :=
  c7_tag_filter [taggedCard] ["math", "other"] taggedCard

/-! ## Claim C8 -/

/-- C8: `getCardStats` on the empty card set returns `totalCards = 0`,
`dueCards = 0`, `avgEaseFactor = 0`, the all-zero 6-bucket performance
histogram, and empty `reviewsByDay` and `upcomingReviews` maps — a
well-defined result with no failure and no division by zero (the
source's `sum / length || 0` resolves the empty-set `NaN` to `0`). -/
theorem c8_empty_stats (now : ℚ) :
    getCardStats [] now =
      { totalCards := 0, dueCards := 0, avgEaseFactor := 0
        reviewsByDay := [], upcomingReviews := []
        performanceDistribution := [0, 0, 0, 0, 0, 0] } := rfl

/-! ## Claim C9 -/

/-- C9: for every card and every rating in `[0, 5]`, the re-review flag
returned by `applyReview` is `true` exactly when `rating < 4`. The flag
is a field of the returned `ReviewOutcome`, not of `Card`, so it is never
part of the persisted card state — mirroring the source, where
`needsReReview` exists only in the object returned by `reviewCard`. -/
theorem c9_rereview_flag (card : Card) (rating now : ℚ)
    (_h0 : 0 ≤ rating) (_h5 : rating ≤ 5) :
    (applyReview card rating now).needsReReview = true ↔ rating < 4 := by
  simp [applyReview]

/-- Witness for C9 at rating `3` (flag must be `true`). -/
theorem c9_witness :
    (applyReview sampleCard 3 0).needsReReview = true ↔ (3 : ℚ) < 4 :=
  c9_rereview_flag sampleCard 3 0 (by decide) (by decide)

/-! ## Claim C5 -/

/-- C5 counterexample: `reviewCard` does not reject an out-of-range
rating. With the rating `6` (outside `[0, 5]`) on the sample card, the
call succeeds (no error) and the card's scheduling state is fully
updated with the raw rating: `lastRating = 6`, the EF formula is applied
to `6` giving `2.66`, interval, repetition and due date all advance. -/
theorem c5_counterexample :
    reviewCard [sampleCard] "card-1" 6 0
      = .ok ([{ sampleCard with
                  EF := 133/50, interval := 1, repetition := 1, dueDate := 1
                  lastReview := some 0, performance := some [6]
                  lastRating := some 6 }],
             { card := { sampleCard with
                           EF := 133/50, interval := 1, repetition := 1, dueDate := 1
                           lastReview := some 0, performance := some [6]
                           lastRating := some 6 }
               needsReReview := false }) := rfl

/-- C5 (amended): `reviewCard` performs no rating validation at all — the
only error it can raise is `'Card not found'`; whenever the card exists,
the review is applied with the raw rating (neither rejected nor
clamped), so the card's scheduling state is updated even by an
out-of-range rating, which is stored verbatim in `lastRating`. -/
theorem c5_no_rating_validation (cards : List Card) (cardId : String)
    (rating now : ℚ) :
    (∀ e, reviewCard cards cardId rating now = .error e → e = "Card not found")
    ∧ (∀ card, cards.find? (fun c => c.id = cardId) = some card →
        reviewCard cards cardId rating now
          = .ok (cards.set (cards.findIdx (fun c => c.id = cardId))
                   (applyReview card rating now).card,
                 applyReview card rating now)
          ∧ (applyReview card rating now).card.lastRating = some rating) := by
  constructor
  · intro e he
    cases hf : cards.find? (fun c => c.id = cardId) with
    | none => simp [reviewCard, hf] at he; exact he.symm
    | some card => simp [reviewCard, hf] at he
  · intro card hf
    refine ⟨by simp [reviewCard, hf], ?_⟩
    by_cases h3 : 3 ≤ rating <;> simp [applyReview, h3]

/-- Witness for C5 (amended): the no-validation behavior at the concrete
out-of-range rating `6`. -/
theorem c5_witness :
    reviewCard [sampleCard] "card-1" 6 0
      = .ok ([sampleCard].set ([sampleCard].findIdx (fun c => c.id = "card-1"))
               (applyReview sampleCard 6 0).card,
             applyReview sampleCard 6 0)
    ∧ (applyReview sampleCard 6 0).card.lastRating = some 6 :=
  (c5_no_rating_validation [sampleCard] "card-1" 6 0).2 sampleCard (by rfl)

/-! ## Claim C10 -/

/-- Exactly one of the three priority filters of `getDueCards` holds for
a card whose `lastRating`, when defined, is an integer (denominator 1). -/
lemma tier_cases (c : Card) (h : (c.lastRating.getD 0).den = 1) :
    (isFailedCard c = true ∧ isDifficultCard c = false ∧ isRemainingCard c = false)
    ∨ (isFailedCard c = false ∧ isDifficultCard c = true ∧ isRemainingCard c = false)
    ∨ (isFailedCard c = false ∧ isDifficultCard c = false ∧ isRemainingCard c = true) := by
  cases hlr : c.lastRating with
  | none =>
      refine Or.inr (Or.inr ⟨?_, ?_, ?_⟩) <;>
        simp [isFailedCard, isDifficultCard, isRemainingCard, hlr]
  | some r =>
      rw [hlr] at h
      have hr : (r.num : ℚ) = r := (Rat.den_eq_one_iff r).mp h
      have hf : isFailedCard c = decide (r ≤ 2) := by simp [isFailedCard, hlr]
      have hd : isDifficultCard c = decide (r = 3) := by simp [isDifficultCard, hlr]
      have hm : isRemainingCard c = decide (3 < r) := by simp [isRemainingCard, hlr]
      rcases (by omega : r.num ≤ 2 ∨ r.num = 3 ∨ 4 ≤ r.num) with hk | hk | hk
      · have hle : r ≤ 2 := by rw [← hr]; exact_mod_cast hk
        have hne : r ≠ 3 := by
          intro he; rw [he] at hle; norm_num at hle
        have hnl : ¬ 3 < r := not_lt.mpr (hle.trans (by norm_num))
        exact Or.inl ⟨by simp [hf, hle], by simp [hd, hne], by simp [hm, hnl]⟩
      · have he3 : r = 3 := by rw [← hr, hk]; norm_num
        have hnle : ¬ r ≤ 2 := by rw [he3]; norm_num
        have hnl : ¬ 3 < r := by rw [he3]; exact lt_irrefl 3
        exact Or.inr (Or.inl ⟨by simp [hf, hnle], by simp [hd, he3], by simp [hm, hnl]⟩)
      · have hgt : 3 < r := by
          rw [← hr]; exact_mod_cast (by omega : (3 : ℤ) < r.num)
        have hnle : ¬ r ≤ 2 := not_le.mpr ((by norm_num : (2:ℚ) < 3).trans hgt)
        have hne : r ≠ 3 := by
          intro he; rw [he] at hgt; exact lt_irrefl _ hgt
        exact Or.inr (Or.inr ⟨by simp [hf, hnle], by simp [hd, hne], by simp [hm, hgt]⟩)

/-- Concatenating the three priority filters permutes the filtered list,
provided every defined `lastRating` in it is an integer. -/
lemma tiers_perm (l : List Card) (h : ∀ c ∈ l, (c.lastRating.getD 0).den = 1) :
    (l.filter isFailedCard ++ l.filter isDifficultCard
      ++ l.filter isRemainingCard).Perm l := by
  induction l with
  | nil => simp
  | cons c t ih =>
      have ht : ∀ c' ∈ t, (c'.lastRating.getD 0).den = 1 :=
        fun c' hc' => h c' (List.mem_cons_of_mem _ hc')
      rcases tier_cases c (h c (List.mem_cons_self c t)) with
        ⟨h1, h2, h3⟩ | ⟨h1, h2, h3⟩ | ⟨h1, h2, h3⟩
      · rw [List.filter_cons_of_pos h1, List.filter_cons_of_neg (by simp [h2]),
            List.filter_cons_of_neg (by simp [h3]), List.cons_append,
            List.cons_append]
        exact (ih ht).cons c
      · rw [List.filter_cons_of_neg (by simp [h1]), List.filter_cons_of_pos h2,
            List.filter_cons_of_neg (by simp [h3])]
        have hshape :
            t.filter isFailedCard ++ (c :: t.filter isDifficultCard)
                ++ t.filter isRemainingCard
              = t.filter isFailedCard
                  ++ c :: (t.filter isDifficultCard ++ t.filter isRemainingCard) := by
          simp
        rw [hshape]
        have htail := (ih ht).cons c
        rw [List.append_assoc] at htail
        exact List.perm_middle.trans htail
      · rw [List.filter_cons_of_neg (by simp [h1]), List.filter_cons_of_neg (by simp [h2]),
            List.filter_cons_of_pos h3]
        exact List.perm_middle.trans ((ih ht).cons c)

/-- C10 counterexample: a due card whose stored `lastRating` lies
strictly between 3 and 4 (here `3.5`) is NOT dropped by `getDueCards`:
it satisfies the third filter (`lastRating > 3`) and is returned. -/
def betweenThreeAndFour : Card :=
  { sampleCard with id := "rating-3p5", lastRating := some (7/2) }

/-- C10 counterexample: the claim asserts that a due card whose
`lastRating` lies strictly between 3 and 4 matches no tier and is
silently dropped; with `lastRating = 3.5` the card is in fact selected
(it lands in the third tier, `lastRating > 3`). -/
theorem c10_counterexample :
    (3 : ℚ) < 7/2 ∧ (7/2 : ℚ) < 4
    ∧ betweenThreeAndFour.lastRating = some (7/2)
    ∧ betweenThreeAndFour.dueDate ≤ 0
    ∧ getDueCards [betweenThreeAndFour] 0 true = [betweenThreeAndFour] :=
  ⟨by norm_num, by norm_num, rfl, by norm_num [betweenThreeAndFour, sampleCard], rfl⟩

/-- C10 (amended): when every defined `lastRating` in the card list is an
integer, `getDueCards` with the failed-priority flag returns a
permutation of the due cards — the three priority filters are then
pairwise disjoint and jointly exhaustive, so no due card is dropped or
duplicated. Without the integer precondition the tiers are not
exhaustive: a due card whose stored `lastRating` lies strictly between 2
and 3 matches no tier and is silently dropped (one strictly between 3
and 4, by contrast, falls into the third tier and is kept, as the
counterexample shows). -/
theorem c10_integer_partition (cards : List Card) (now : ℚ) :
    ((∀ c ∈ cards, (c.lastRating.getD 0).den = 1) →
      (getDueCards cards now true).Perm (cards.filter (isDue now)))
    ∧ (∀ c ∈ cards, c.dueDate ≤ now →
        ∀ r : ℚ, c.lastRating = some r → 2 < r → r < 3 →
          c ∉ getDueCards cards now true) := by
  constructor
  · intro h
    have hsub : ∀ c ∈ cards.filter (isDue now), (c.lastRating.getD 0).den = 1 :=
      fun c hc => h c (List.mem_filter.mp hc).1
    simpa [getDueCards] using tiers_perm (cards.filter (isDue now)) hsub
  · intro c _hc _hdue r hlr h2 h3 hmem
    simp only [getDueCards, if_pos, List.mem_append] at hmem
    rcases hmem with (hm | hm) | hm
    · have hp := (List.mem_filter.mp hm).2
      simp [isFailedCard, hlr] at hp
      linarith
    · have hp := (List.mem_filter.mp hm).2
      simp [isDifficultCard, hlr] at hp
      rw [hp] at h3
      exact lt_irrefl _ h3
    · have hp := (List.mem_filter.mp hm).2
      simp [isRemainingCard, hlr] at hp
      linarith

/-- A due card whose `lastRating` lies strictly between 2 and 3; such a
card is silently dropped by the prioritized selection. -/
def betweenTwoAndThree : Card :=
  { sampleCard with id := "rating-2p5", lastRating := some (5/2) }

/-- Witness for C10 (amended): the Scenario D integer-rated due set comes
back as a permutation of its due cards, while the `2.5`-rated due card is
dropped. -/
theorem c10_witness :
    (getDueCards [dueCard1, dueCard2, dueCard3, dueCard4] 0 true).Perm
        ([dueCard1, dueCard2, dueCard3, dueCard4].filter (isDue 0))
    ∧ betweenTwoAndThree ∉ getDueCards [betweenTwoAndThree] 0 true :=
  ⟨(c10_integer_partition [dueCard1, dueCard2, dueCard3, dueCard4] 0).1 (by decide),
   (c10_integer_partition [betweenTwoAndThree] 0).2 betweenTwoAndThree
     (by decide) (by decide) (5/2) (by rfl) (by decide) (by decide)⟩

end SuperMemo
